import Mathlib

/-!
Verification of the weather-API gateway core: the `_TTLCache` store, the
weatherstack upstream client's envelope handling, the payload mapping step,
and the handler's error translation, shallowly embedded from
`app/main.py` and `app/weatherstack_client.py`.
-/

namespace WeatherApi

/-- A cache entry as stored by `_TTLCache` in `app/main.py`: the tuple
`(expires_at, counter, value)` kept in `self._data`.  Timestamps and the
monotonic counter (a Python float incremented by `1` each write) are
modelled as naturals. -/
structure Entry (α : Type) where
  expiresAt : Nat
  seq : Nat
  value : α
  deriving DecidableEq, Repr

/-- The `_TTLCache` state from `app/main.py`.  `data` is an
insertion-ordered association list modelling the Python dict
`self._data : dict[str, tuple[float, float, Any]]`. -/
structure TTLCache (α : Type) where
  ttl : Nat
  maxSize : Nat
  data : List (String × Entry α)
  counter : Nat
  deriving DecidableEq, Repr

/-- `self._data.get(key)`: the first (under key-uniqueness, the only)
binding for `key`. -/
def lookupEntry (key : String) : List (String × Entry α) → Option (Entry α)
  | [] => none
  | kv :: rest => if kv.1 = key then some kv.2 else lookupEntry key rest

/-- `self._data.pop(key, None)`: drop the binding for `key`. -/
def eraseKey (key : String) (d : List (String × Entry α)) :
    List (String × Entry α) :=
  d.filter (fun kv => kv.1 != key)

/-- `self._data[key] = entry` on the Python dict: overwriting an existing
key keeps its position, a new key is appended at the end. -/
def insertKey (key : String) (e : Entry α) :
    List (String × Entry α) → List (String × Entry α)
  | [] => [(key, e)]
  | kv :: rest =>
      if kv.1 = key then (key, e) :: rest else kv :: insertKey key e rest

/-- The sweep at the top of `_TTLCache.set`:
`{k: v for k, v in self._data.items() if v[0] > now}`. -/
def sweep (now : Nat) (d : List (String × Entry α)) :
    List (String × Entry α) :=
  d.filter (fun kv => decide (now < kv.2.expiresAt))

/-- The element of `x :: xs` with the smallest sequence number; on ties the
earliest in iteration order wins, matching Python's `min`. -/
def minBySeq (x : String × Entry α) (xs : List (String × Entry α)) :
    String × Entry α :=
  xs.foldl (fun best p => if p.2.seq < best.2.seq then p else best) x

/-- `min(self._data, key=lambda k: self._data[k][1])`: the key of the entry
with the smallest sequence number.  On the empty store the source's `min`
raises `ValueError`; that branch is modelled as `none` and is unreachable
from any use with `max_size ≥ 1`. -/
def oldestKey : List (String × Entry α) → Option String
  | [] => none
  | kv :: rest => some (minBySeq kv rest).1

/-- `_TTLCache.get` (app/main.py lines 36–48): returns the stored value if
present and unexpired, removes an expired entry as a side effect, and
returns `none` otherwise.  The result pairs the looked-up value with the
updated cache state. -/
def TTLCache.get (c : TTLCache α) (now : Nat) (key : String) :
    Option α × TTLCache α :=
  match lookupEntry key c.data with
  | none => (none, c)
  | some e =>
      if e.expiresAt ≤ now then
        (none, { c with data := eraseKey key c.data })
      else
        (some e.value, c)

/-- `_TTLCache.set` (app/main.py lines 50–65): sweep expired entries, evict
the entry with the smallest sequence number when at or above capacity, then
insert the new entry with a fresh counter value. -/
def TTLCache.set (c : TTLCache α) (now : Nat) (key : String) (v : α) :
    TTLCache α :=
  let d₀ := sweep now c.data
  let d₁ :=
    if c.maxSize ≤ d₀.length then
      match oldestKey d₀ with
      | some k => eraseKey k d₀
      | none => d₀
    else d₀
  let ctr := c.counter + 1
  { c with data := insertKey key ⟨now + c.ttl, ctr, v⟩ d₁, counter := ctr }

/-- A freshly constructed `_TTLCache(ttl_seconds=ttl, max_size=maxSize)`. -/
def mkCache (α : Type) (ttl maxSize : Nat) : TTLCache α :=
  ⟨ttl, maxSize, [], 0⟩

/-- Looking up the key just written by `insertKey` yields the new entry. -/
theorem lookupEntry_insertKey_self (key : String) (e : Entry α)
    (d : List (String × Entry α)) :
    lookupEntry key (insertKey key e d) = some e := by
  induction d with
  | nil => simp [insertKey, lookupEntry]
  | cons kv rest ih =>
      by_cases hk : kv.1 = key
      · simp [insertKey, hk, lookupEntry]
      · simp [insertKey, hk, lookupEntry, ih]

/-- The entry just written by `set` is found under its key, carrying the
fresh counter value and expiry `now + ttl`. -/
theorem lookupEntry_set_self (c : TTLCache α) (now : Nat) (key : String)
    (v : α) :
    lookupEntry key ((c.set now key v).data)
      = some ⟨now + c.ttl, c.counter + 1, v⟩ := by
  show lookupEntry key (insertKey key _ _) = _
  exact lookupEntry_insertKey_self key _ _

/-- C4: `get` returns the stored value exactly when the entry is present
with `expires_at > now` and leaves the store untouched on a hit (a read
never extends a lifetime); a lookup finding an expired entry removes it and
returns `none`; a missing key returns `none` without change; and an entry
written through a cache with `ttl_seconds = 0` is absent on the very next
`get`. -/
theorem cache_get_spec (α : Type) (c : TTLCache α) (now : Nat) (key : String) :
    (∀ e : Entry α, lookupEntry key c.data = some e → now < e.expiresAt →
        c.get now key = (some e.value, c))
    ∧ (∀ e : Entry α, lookupEntry key c.data = some e → e.expiresAt ≤ now →
        c.get now key = (none, { c with data := eraseKey key c.data }))
    ∧ (lookupEntry key c.data = none → c.get now key = (none, c))
    ∧ (∀ (c' : TTLCache α) (t t' : Nat) (k : String) (v : α),
        c'.ttl = 0 → t ≤ t' → ((c'.set t k v).get t' k).1 = none) := by
  refine ⟨?_, ?_, ?_, ?_⟩
  · intro e he hlt
    simp [TTLCache.get, he, Nat.not_le.mpr hlt]
  · intro e he hle
    simp [TTLCache.get, he, hle]
  · intro he
    simp [TTLCache.get, he]
  · intro c' t t' k v httl hle
    have hfind := lookupEntry_set_self c' t k v
    have : (⟨t + c'.ttl, c'.counter + 1, v⟩ : Entry α).expiresAt ≤ t' := by
      simp [httl]; omega
    simp [TTLCache.get, hfind, this]

/-- Witness for `cache_get_spec` at concrete inputs: a fresh hit, an
expired lookup, a missing key, and the `ttl = 0` instant-expiry case. -/
theorem cache_get_spec_witness :
    (((mkCache Nat 10 2).set 0 "k" 7).get 3 "k"
        = (some 7, (mkCache Nat 10 2).set 0 "k" 7))
    ∧ (((mkCache Nat 10 2).set 0 "k" 7).get 12 "k"
        = (none, { (mkCache Nat 10 2).set 0 "k" 7 with
            data := eraseKey "k" ((mkCache Nat 10 2).set 0 "k" 7).data }))
    ∧ (((mkCache Nat 10 2).set 0 "k" 7).get 3 "z"
        = (none, (mkCache Nat 10 2).set 0 "k" 7))
    ∧ ((((mkCache Nat 0 2).set 5 "a" 1).get 5 "a").1 = none) := by
  refine ⟨?_, ?_, ?_, ?_⟩
  · exact (cache_get_spec Nat ((mkCache Nat 10 2).set 0 "k" 7) 3 "k").1
      ⟨10, 1, 7⟩ (by decide) (by decide)
  · exact (cache_get_spec Nat ((mkCache Nat 10 2).set 0 "k" 7) 12 "k").2.1
      ⟨10, 1, 7⟩ (by decide) (by decide)
  · exact (cache_get_spec Nat ((mkCache Nat 10 2).set 0 "k" 7) 3 "z").2.2.1
      (by decide)
  · exact (cache_get_spec Nat (mkCache Nat 0 2) 0 "x").2.2.2
      (mkCache Nat 0 2) 5 5 "a" 1 (by decide) (by decide)

/-- Python's `str.split()` with no argument, on a character list: split on
runs of whitespace, discarding empty pieces (so leading/trailing whitespace
contributes nothing).  `cur` is the word being read (reversed), `acc` the
finished words (reversed). -/
def splitWsAux : List Char → List Char → List (List Char) → List (List Char)
  | [], cur, acc =>
      if cur.isEmpty then acc.reverse else (cur.reverse :: acc).reverse
  | c :: rest, cur, acc =>
      if c.isWhitespace then
        if cur.isEmpty then splitWsAux rest [] acc
        else splitWsAux rest [] (cur.reverse :: acc)
      else splitWsAux rest (c :: cur) acc

/-- `city.split()`: the whitespace-delimited words of `city`. -/
def pySplit (s : String) : List String :=
  (splitWsAux s.data [] []).map (fun cs => String.mk cs)

/-- The handler's city normalization `" ".join(city.split())`
(app/main.py line 176): split on whitespace runs and re-join with single
spaces, which also trims leading/trailing whitespace. -/
def normalizeCity (s : String) : String :=
  String.intercalate " " (pySplit s)

/-- `str.casefold` (app/main.py line 181), modelled on the ASCII range —
where it agrees with lowercasing — since the spec's examples are ASCII. -/
def caseFold (s : String) : String :=
  String.mk (s.data.map Char.toLower)

/-- The cache key the handler derives from the raw `city` query value:
`(" ".join(city.split())).casefold()`. -/
def cacheKey (city : String) : String :=
  caseFold (normalizeCity city)

/-- C8: the cache key is the whitespace-normalized, case-folded city —
`"  New   York "` yields key `"new york"` — so a value stored via city
`"Paris"` is returned by lookups via `"paris"` and via `"PARIS"` (before
its expiry). -/
theorem cache_key_normalization (α : Type) (c : TTLCache α) (now : Nat)
    (v : α) (httl : 0 < c.ttl) :
    cacheKey "  New   York " = "new york"
    ∧ ((c.set now (cacheKey "Paris") v).get now (cacheKey "paris")).1 = some v
    ∧ ((c.set now (cacheKey "Paris") v).get now (cacheKey "PARIS")).1 = some v := by
  have hparis : cacheKey "paris" = cacheKey "Paris" := by decide
  have hPARIS : cacheKey "PARIS" = cacheKey "Paris" := by decide
  have hhit : ((c.set now (cacheKey "Paris") v).get now (cacheKey "Paris")).1
      = some v := by
    have hfind := lookupEntry_set_self c now (cacheKey "Paris") v
    have hexp : ¬ (⟨now + c.ttl, c.counter + 1, v⟩ : Entry α).expiresAt ≤ now := by
      simp; omega
    simp [TTLCache.get, hfind, hexp]
  refine ⟨by decide, ?_, ?_⟩
  · rw [hparis]; exact hhit
  · rw [hPARIS]; exact hhit

/-- Witness for `cache_key_normalization` with a two-slot cache of TTL 3. -/
theorem cache_key_normalization_witness :
    cacheKey "  New   York " = "new york"
    ∧ (((mkCache Nat 3 2).set 0 (cacheKey "Paris") 42).get 0
        (cacheKey "paris")).1 = some 42
    ∧ (((mkCache Nat 3 2).set 0 (cacheKey "Paris") 42).get 0
        (cacheKey "PARIS")).1 = some 42 :=
  cache_key_normalization Nat (mkCache Nat 3 2) 0 42 (by decide)

/-- The fold underlying `oldestKey` returns an element of the list. -/
theorem minBySeq_mem (x : String × Entry α) (xs : List (String × Entry α)) :
    minBySeq x xs ∈ x :: xs := by
  induction xs generalizing x with
  | nil => simp [minBySeq]
  | cons a rest ih =>
      have hstep : minBySeq x (a :: rest)
          = minBySeq (if a.2.seq < x.2.seq then a else x) rest := by
        simp [minBySeq]
      rw [hstep]
      rcases List.mem_cons.mp (ih (if a.2.seq < x.2.seq then a else x)) with h | h
      · rw [h]
        by_cases hlt : a.2.seq < x.2.seq
        · simp [hlt]
        · simp [hlt]
      · exact List.mem_cons_of_mem x (List.mem_cons_of_mem a h)

/-- The fold underlying `oldestKey` returns a sequence-number minimum. -/
theorem minBySeq_le (x : String × Entry α) (xs : List (String × Entry α)) :
    ∀ y ∈ x :: xs, (minBySeq x xs).2.seq ≤ y.2.seq := by
  induction xs generalizing x with
  | nil =>
      intro y hy
      simp only [List.mem_singleton] at hy
      simp [minBySeq, hy]
  | cons a rest ih =>
      intro y hy
      have hstep : minBySeq x (a :: rest)
          = minBySeq (if a.2.seq < x.2.seq then a else x) rest := by
        simp [minBySeq]
      have hhead : (minBySeq (if a.2.seq < x.2.seq then a else x) rest).2.seq
          ≤ (if a.2.seq < x.2.seq then a else x).2.seq :=
        ih _ _ (List.mem_cons_self _ _)
      have hx : (if a.2.seq < x.2.seq then a else x).2.seq ≤ x.2.seq := by
        by_cases hlt : a.2.seq < x.2.seq
        · simp [hlt]; omega
        · simp [hlt]
      have ha : (if a.2.seq < x.2.seq then a else x).2.seq ≤ a.2.seq := by
        by_cases hlt : a.2.seq < x.2.seq
        · simp [hlt]
        · simp [hlt]; omega
      rw [hstep]
      rcases List.mem_cons.mp hy with hy | hy
      · rw [hy]; exact le_trans hhead hx
      · rcases List.mem_cons.mp hy with hy | hy
        · rw [hy]; exact le_trans hhead ha
        · exact ih _ y (List.mem_cons_of_mem _ hy)

/-- Under key-uniqueness, a pair in the store is found by `lookupEntry`. -/
theorem lookupEntry_of_mem_nodup (d : List (String × Entry α))
    (hnd : (d.map Prod.fst).Nodup) (k : String) (e : Entry α)
    (hmem : (k, e) ∈ d) :
    lookupEntry k d = some e := by
  induction d with
  | nil => cases hmem
  | cons kv rest ih =>
      rcases List.mem_cons.mp hmem with hmem | hmem
      · rw [← hmem]
        simp [lookupEntry]
      · have hk : kv.1 ≠ k := by
          intro hkk
          have hin : k ∈ rest.map Prod.fst :=
            List.mem_map.mpr ⟨(k, e), hmem, rfl⟩
          exact (List.nodup_cons.mp hnd).1 (hkk ▸ hin)
        simp only [lookupEntry, if_neg hk]
        exact ih (List.nodup_cons.mp hnd).2 hmem

/-- Erasing a key that is not in the store is a no-op. -/
theorem eraseKey_of_not_mem (d : List (String × Entry α)) (k : String)
    (h : k ∉ d.map Prod.fst) :
    eraseKey k d = d := by
  induction d with
  | nil => rfl
  | cons kv rest ih =>
      simp only [List.map_cons, List.mem_cons] at h
      push_neg at h
      have hk : kv.1 != k := by
        simp [bne_iff_ne]; exact fun hh => h.1 hh.symm
      simp [eraseKey, hk] at *
      exact ih h.2

/-- Under key-uniqueness, erasing a present key removes exactly one entry. -/
theorem eraseKey_length (d : List (String × Entry α)) (k : String)
    (hnd : (d.map Prod.fst).Nodup) (h : k ∈ d.map Prod.fst) :
    (eraseKey k d).length + 1 = d.length := by
  induction d with
  | nil => cases h
  | cons kv rest ih =>
      rcases List.mem_cons.mp h with hk | hk
      · have hnot : k ∉ rest.map Prod.fst := by
          rw [hk]; exact (List.nodup_cons.mp hnd).1
        have hbeq : (kv.1 != k) = false := by simp [bne_iff_ne, hk]
        have hstep : eraseKey k (kv :: rest) = eraseKey k rest := by
          simp only [eraseKey, List.filter_cons, hbeq]
          simp
        rw [hstep, eraseKey_of_not_mem rest k hnot]
        simp
      · have hne : kv.1 ≠ k := by
          intro hkk
          exact (List.nodup_cons.mp hnd).1 (hkk ▸ hk)
        have hbeq : (kv.1 != k) = true := by simp [bne_iff_ne, hne]
        have hstep : eraseKey k (kv :: rest) = kv :: eraseKey k rest := by
          simp only [eraseKey, List.filter_cons, hbeq]
          simp
        rw [hstep]
        have := ih (List.nodup_cons.mp hnd).2 hk
        simp only [List.length_cons]
        omega

/-- The sweep preserves key-uniqueness. -/
theorem sweep_nodup (now : Nat) (d : List (String × Entry α))
    (hnd : (d.map Prod.fst).Nodup) :
    ((sweep now d).map Prod.fst).Nodup :=
  hnd.sublist ((List.filter_sublist d).map Prod.fst)

/-- Erasing preserves key-uniqueness. -/
theorem eraseKey_nodup (k : String) (d : List (String × Entry α))
    (hnd : (d.map Prod.fst).Nodup) :
    ((eraseKey k d).map Prod.fst).Nodup :=
  hnd.sublist ((List.filter_sublist d).map Prod.fst)

/-- Inserting adds at most one entry. -/
theorem insertKey_length_le (key : String) (e : Entry α)
    (d : List (String × Entry α)) :
    (insertKey key e d).length ≤ d.length + 1 := by
  induction d with
  | nil => simp [insertKey]
  | cons kv rest ih =>
      by_cases hk : kv.1 = key
      · simp [insertKey, hk]
      · simp only [insertKey, if_neg hk, List.length_cons]
        omega

/-- Every key of `insertKey key e d` is `key` or a key of `d`. -/
theorem mem_keys_insertKey (key x : String) (e : Entry α)
    (d : List (String × Entry α))
    (hx : x ∈ (insertKey key e d).map Prod.fst) :
    x = key ∨ x ∈ d.map Prod.fst := by
  induction d with
  | nil => simp [insertKey] at hx; exact Or.inl hx
  | cons kv rest ih =>
      by_cases hk : kv.1 = key
      · simp only [insertKey, if_pos hk, List.map_cons, List.mem_cons] at hx
        rcases hx with hx | hx
        · exact Or.inl hx
        · exact Or.inr (by simp [hx])
      · simp only [insertKey, if_neg hk, List.map_cons, List.mem_cons] at hx
        rcases hx with hx | hx
        · exact Or.inr (by simp [hx])
        · rcases ih hx with hh | hh
          · exact Or.inl hh
          · exact Or.inr (by simp [hh])

/-- Inserting preserves key-uniqueness. -/
theorem insertKey_nodup (key : String) (e : Entry α)
    (d : List (String × Entry α)) (hnd : (d.map Prod.fst).Nodup) :
    ((insertKey key e d).map Prod.fst).Nodup := by
  induction d with
  | nil => simp [insertKey]
  | cons kv rest ih =>
      have hhead := (List.nodup_cons.mp hnd).1
      have htail := (List.nodup_cons.mp hnd).2
      by_cases hk : kv.1 = key
      · simp only [insertKey, if_pos hk, List.map_cons]
        exact List.nodup_cons.mpr ⟨hk ▸ hhead, htail⟩
      · simp only [insertKey, if_neg hk, List.map_cons]
        refine List.nodup_cons.mpr ⟨?_, ih htail⟩
        intro hin
        rcases mem_keys_insertKey key kv.1 e rest hin with hh | hh
        · exact hk hh
        · exact hhead hh

/-- One `set` keeps the store within `max_size` and keeps keys unique. -/
theorem set_preserves_bound (c : TTLCache α) (now : Nat) (key : String)
    (v : α) (hpos : 0 < c.maxSize) (hlen : c.data.length ≤ c.maxSize)
    (hnd : (c.data.map Prod.fst).Nodup) :
    (c.set now key v).data.length ≤ c.maxSize
    ∧ (((c.set now key v).data).map Prod.fst).Nodup := by
  have hlen0 : (sweep now c.data).length ≤ c.maxSize :=
    le_trans (List.length_filter_le _ _) hlen
  have hnd0 : ((sweep now c.data).map Prod.fst).Nodup := sweep_nodup now c.data hnd
  by_cases hcap : c.maxSize ≤ (sweep now c.data).length
  · have hne : sweep now c.data ≠ [] := by
      intro hnil
      rw [hnil] at hcap
      simp at hcap
      omega
    obtain ⟨x, xs, hd⟩ := List.exists_cons_of_ne_nil hne
    have hold : oldestKey (sweep now c.data) = some (minBySeq x xs).1 := by
      rw [hd]; rfl
    have hpair : ((minBySeq x xs).1, (minBySeq x xs).2) ∈ sweep now c.data := by
      simpa using (hd ▸ minBySeq_mem x xs)
    have hkmem : (minBySeq x xs).1 ∈ (sweep now c.data).map Prod.fst :=
      List.mem_map.mpr ⟨_, hpair, rfl⟩
    have herase := eraseKey_length (sweep now c.data) (minBySeq x xs).1 hnd0 hkmem
    have hdata : (c.set now key v).data
        = insertKey key ⟨now + c.ttl, c.counter + 1, v⟩
            (eraseKey (minBySeq x xs).1 (sweep now c.data)) := by
      simp only [TTLCache.set, if_pos hcap, hold]
    constructor
    · rw [hdata]
      have := insertKey_length_le key
        (⟨now + c.ttl, c.counter + 1, v⟩ : Entry α)
        (eraseKey (minBySeq x xs).1 (sweep now c.data))
      omega
    · rw [hdata]
      exact insertKey_nodup _ _ _ (eraseKey_nodup _ _ hnd0)
  · have hdata : (c.set now key v).data
        = insertKey key ⟨now + c.ttl, c.counter + 1, v⟩ (sweep now c.data) := by
      simp only [TTLCache.set, if_neg hcap]
    constructor
    · rw [hdata]
      have := insertKey_length_le key
        (⟨now + c.ttl, c.counter + 1, v⟩ : Entry α) (sweep now c.data)
      omega
    · rw [hdata]
      exact insertKey_nodup _ _ _ hnd0

/-- A sequence of `set` calls, each given as `(now, key, value)`. -/
def applySets (c : TTLCache α) : List (Nat × String × α) → TTLCache α
  | [] => c
  | op :: ops => applySets (c.set op.1 op.2.1 op.2.2) ops

/-- `set` never changes the configured bound. -/
theorem applySets_maxSize (ops : List (Nat × String × α)) (c : TTLCache α) :
    (applySets c ops).maxSize = c.maxSize := by
  induction ops generalizing c with
  | nil => rfl
  | cons op ops ih => exact (ih _).trans rfl

/-- The size bound and key-uniqueness are preserved by any `set` sequence. -/
theorem applySets_bound (ops : List (Nat × String × α)) (c : TTLCache α)
    (hpos : 0 < c.maxSize) (hlen : c.data.length ≤ c.maxSize)
    (hnd : (c.data.map Prod.fst).Nodup) :
    (applySets c ops).data.length ≤ c.maxSize
    ∧ ((applySets c ops).data.map Prod.fst).Nodup := by
  induction ops generalizing c with
  | nil => exact ⟨hlen, hnd⟩
  | cons op ops ih =>
      have hstep := set_preserves_bound c op.1 op.2.1 op.2.2 hpos hlen hnd
      exact ih (c.set op.1 op.2.1 op.2.2) hpos hstep.1 hstep.2

/-- C2: starting from a fresh cache with positive `max_size`, after any
sequence of `set` calls the store holds at most `max_size` entries and at
most one entry per key. -/
theorem cache_size_bound (α : Type) (ttl maxSize : Nat) (hpos : 0 < maxSize)
    (ops : List (Nat × String × α)) :
    (applySets (mkCache α ttl maxSize) ops).data.length ≤ maxSize
    ∧ ((applySets (mkCache α ttl maxSize) ops).data.map Prod.fst).Nodup :=
  applySets_bound ops (mkCache α ttl maxSize) hpos (by simp [mkCache])
    (by simp [mkCache])

/-- Witness for `cache_size_bound`: three distinct keys through a two-slot
cache. -/
theorem cache_size_bound_witness :
    (applySets (mkCache Nat 5 2) [(0, "a", 1), (0, "b", 2), (0, "c", 3)]).data.length ≤ 2
    ∧ ((applySets (mkCache Nat 5 2)
        [(0, "a", 1), (0, "b", 2), (0, "c", 3)]).data.map Prod.fst).Nodup :=
  cache_size_bound Nat 5 2 (by decide) [(0, "a", 1), (0, "b", 2), (0, "c", 3)]

/-- C1: when the post-sweep store is at or above capacity, `set` evicts
exactly one entry — one carrying a minimal sequence number — and then
inserts the new entry under a fresh, strictly larger sequence number; in
particular with `max_size = 2`, setting A, B, C evicts A, while setting
A, B, re-setting A, then setting C evicts B, not A. -/
theorem cache_fifo_eviction (α : Type) (c : TTLCache α) (now : Nat)
    (key : String) (v : α)
    (hnd : (c.data.map Prod.fst).Nodup)
    (hseq : ∀ kv ∈ c.data, kv.2.seq ≤ c.counter)
    (hpos : 0 < c.maxSize)
    (hcap : c.maxSize ≤ (sweep now c.data).length) :
    (∃ ek ee, lookupEntry ek (sweep now c.data) = some ee
      ∧ (∀ kv ∈ sweep now c.data, ee.seq ≤ kv.2.seq)
      ∧ (c.set now key v).data
          = insertKey key ⟨now + c.ttl, c.counter + 1, v⟩
              (eraseKey ek (sweep now c.data))
      ∧ (eraseKey ek (sweep now c.data)).length + 1
          = (sweep now c.data).length)
    ∧ lookupEntry key ((c.set now key v).data)
        = some ⟨now + c.ttl, c.counter + 1, v⟩
    ∧ (∀ kv ∈ c.data, kv.2.seq < c.counter + 1)
    ∧ (((((mkCache Nat 100 2).set 0 "A" 1).set 0 "B" 2).set 0 "C" 3).get 0
          "A").1 = none
    ∧ (((((mkCache Nat 100 2).set 0 "A" 1).set 0 "B" 2).set 0 "C" 3).get 0
          "B").1 = some 2
    ∧ (((((mkCache Nat 100 2).set 0 "A" 1).set 0 "B" 2).set 0 "C" 3).get 0
          "C").1 = some 3
    ∧ ((((((mkCache Nat 100 2).set 0 "A" 1).set 0 "B" 2).set 0 "A" 9).set 0
          "C" 3).get 0 "B").1 = none
    ∧ ((((((mkCache Nat 100 2).set 0 "A" 1).set 0 "B" 2).set 0 "A" 9).set 0
          "C" 3).get 0 "A").1 = some 9
    ∧ ((((((mkCache Nat 100 2).set 0 "A" 1).set 0 "B" 2).set 0 "A" 9).set 0
          "C" 3).get 0 "C").1 = some 3 := by
  have hnd0 : ((sweep now c.data).map Prod.fst).Nodup := sweep_nodup now c.data hnd
  have hne : sweep now c.data ≠ [] := by
    intro hnil
    rw [hnil] at hcap
    simp at hcap
    omega
  obtain ⟨x, xs, hd⟩ := List.exists_cons_of_ne_nil hne
  have hmem : minBySeq x xs ∈ sweep now c.data := hd ▸ minBySeq_mem x xs
  have hold : oldestKey (sweep now c.data) = some (minBySeq x xs).1 := by
    rw [hd]; rfl
  have hpair : ((minBySeq x xs).1, (minBySeq x xs).2) ∈ sweep now c.data := by
    simpa using hmem
  refine ⟨⟨(minBySeq x xs).1, (minBySeq x xs).2, ?_, ?_, ?_, ?_⟩, ?_, ?_,
    ?_, ?_, ?_, ?_, ?_, ?_⟩
  · exact lookupEntry_of_mem_nodup _ hnd0 _ _ hpair
  · intro kv hkv
    exact minBySeq_le x xs kv (hd ▸ hkv)
  · simp only [TTLCache.set, if_pos hcap, hold]
  · exact eraseKey_length _ _ hnd0 (List.mem_map.mpr ⟨_, hpair, rfl⟩)
  · exact lookupEntry_set_self c now key v
  · intro kv hkv
    exact Nat.lt_succ_of_le (hseq kv hkv)
  · decide
  · decide
  · decide
  · decide
  · decide
  · decide

/-- Witness for `cache_fifo_eviction`: a full one-slot cache holding key
"a"; setting "b" stores it under the fresh sequence number 2. -/
theorem cache_fifo_eviction_witness :
    lookupEntry "b" ((((mkCache Nat 100 1).set 0 "a" 5).set 0 "b" 7).data)
      = some ⟨100, 2, 7⟩ :=
  (cache_fifo_eviction Nat ((mkCache Nat 100 1).set 0 "a" 5) 0 "b" 7
    (by decide) (by decide) (by decide) (by decide)).2.1

/-- The `WeatherResponse` pydantic model from `app/schemas.py`: a mutable
record; optional fields model `Optional[...] = None`. -/
structure WeatherResponse where
  city : String
  country : Option String
  localtime : Option String
  temperature_c : Int
  weather_descriptions : List String
  wind_speed : Option Int
  wind_dir : Option String
  humidity : Option Int
  feelslike_c : Option Int
  uv_index : Option Int
  visibility_km : Option Int
  deriving DecidableEq, Repr

/-- A heap of mutable `WeatherResponse` objects, indexed by address; this
makes Python's reference semantics explicit so aliasing between the cached
record and the records handed to callers can be stated. -/
def readRec : List WeatherResponse → Nat → Option WeatherResponse
  | [], _ => none
  | r :: _, 0 => some r
  | _ :: rest, Nat.succ a => readRec rest a

/-- In-place mutation of the object at address `a` (out-of-range writes are
dropped; all uses stay in range). -/
def writeRec : List WeatherResponse → Nat → WeatherResponse → List WeatherResponse
  | [], _, _ => []
  | _ :: rest, 0, r => r :: rest
  | x :: rest, Nat.succ a, r => x :: writeRec rest a r

/-- Allocate a fresh object holding `r`; returns the heap and new address. -/
def allocRec (h : List WeatherResponse) (r : WeatherResponse) :
    List WeatherResponse × Nat :=
  (h ++ [r], h.length)

/-- The handler's cache write `await cache.set(cache_key,
response.model_copy())` (app/main.py lines 218–220): a fresh copy of the
record at address `a` is allocated and the cache stores the copy's
address.  The cache never stores the caller's own address. -/
def cacheSetCopy (h : List WeatherResponse) (c : TTLCache Nat) (now : Nat)
    (key : String) (a : Nat) : List WeatherResponse × TTLCache Nat :=
  match readRec h a with
  | none => (h, c)
  | some r =>
      let ha := allocRec h r
      (ha.1, c.set now key ha.2)

/-- What a caller observes for `key`: `cache.get` returns the stored
object itself (`return value`, app/main.py line 48 — no copy on read), so
the observed record is whatever the heap currently holds at the stored
address. -/
def cacheGetValue (h : List WeatherResponse) (c : TTLCache Nat) (now : Nat)
    (key : String) : Option WeatherResponse :=
  match (c.get now key).1 with
  | none => none
  | some a => readRec h a

/-- A reading of an address succeeds only inside the heap. -/
theorem readRec_lt_length (h : List WeatherResponse) (a : Nat)
    (r : WeatherResponse) (hr : readRec h a = some r) : a < h.length := by
  induction h generalizing a with
  | nil => cases hr
  | cons x rest ih =>
      cases a with
      | zero => simp
      | succ a => exact Nat.succ_lt_succ (ih a hr)

/-- Reading the address just past `h` in `h ++ [r]` yields `r`. -/
theorem readRec_append_length (h : List WeatherResponse) (r : WeatherResponse) :
    readRec (h ++ [r]) h.length = some r := by
  induction h with
  | nil => rfl
  | cons x rest ih => exact ih

/-- Writing one address leaves every other address unchanged. -/
theorem readRec_writeRec_ne (h : List WeatherResponse) (a b : Nat)
    (r : WeatherResponse) (hab : a ≠ b) :
    readRec (writeRec h b r) a = readRec h a := by
  induction h generalizing a b with
  | nil => rfl
  | cons x rest ih =>
      cases b with
      | zero =>
          cases a with
          | zero => exact absurd rfl hab
          | succ a => rfl
      | succ b =>
          cases a with
          | zero => rfl
          | succ a => exact ih a b (fun hh => hab (by rw [hh]))

/-- Writing an in-range address is observed by a read of that address. -/
theorem readRec_writeRec_same (h : List WeatherResponse) (a : Nat)
    (r : WeatherResponse) (hlt : a < h.length) :
    readRec (writeRec h a r) a = some r := by
  induction h generalizing a with
  | nil => simp at hlt
  | cons x rest ih =>
      cases a with
      | zero => rfl
      | succ a => exact ih a (Nat.lt_of_succ_lt_succ hlt)

/-- A sample record with temperature `t`, for concrete runs. -/
def sampleRec (t : Int) : WeatherResponse :=
  ⟨"x", none, none, t, [], none, none, none, none, none, none⟩

/-- C3 as stated is false: `get` hands back the cached record by
reference.  Concretely: store the record at address 0 through the
copy-making cache write; `get` returns the stored address 1; mutating the
record at that returned address changes what the next `get` observes from
`sampleRec 1` to `sampleRec 2`. -/
theorem copy_isolation_counterexample :
    cacheGetValue (cacheSetCopy [sampleRec 1] (mkCache Nat 100 2) 0 "k" 0).1
      (cacheSetCopy [sampleRec 1] (mkCache Nat 100 2) 0 "k" 0).2 0 "k"
      = some (sampleRec 1)
    ∧ (((cacheSetCopy [sampleRec 1] (mkCache Nat 100 2) 0 "k" 0).2).get 0
        "k").1 = some 1
    ∧ cacheGetValue
        (writeRec (cacheSetCopy [sampleRec 1] (mkCache Nat 100 2) 0 "k" 0).1
          1 (sampleRec 2))
        (cacheSetCopy [sampleRec 1] (mkCache Nat 100 2) 0 "k" 0).2 0 "k"
      = some (sampleRec 2)
    ∧ sampleRec 2 ≠ sampleRec 1 := by
  refine ⟨by decide, by decide, by decide, by decide⟩

/-- C3 amended: the cache write stores a copy, so mutating the record the
handler returned to its caller after a miss (address `a`) never changes
what a later `get` returns; but `get` returns the stored record by
reference, so mutating through the address `get` returned does change what
the next `get` observes. -/
theorem copy_isolation_amended (h : List WeatherResponse) (c : TTLCache Nat)
    (now now' : Nat) (key : String) (a : Nat) (r r' : WeatherResponse)
    (ha : readRec h a = some r) (hexp : now' < now + c.ttl) :
    cacheGetValue (writeRec (cacheSetCopy h c now key a).1 a r')
      (cacheSetCopy h c now key a).2 now' key = some r
    ∧ (∀ a₁, (((cacheSetCopy h c now key a).2).get now' key).1 = some a₁ →
        cacheGetValue (writeRec (cacheSetCopy h c now key a).1 a₁ r')
          (cacheSetCopy h c now key a).2 now' key = some r') := by
  have hsc : cacheSetCopy h c now key a = (h ++ [r], c.set now key h.length) := by
    simp [cacheSetCopy, ha, allocRec]
  have hfind := lookupEntry_set_self c now key h.length
  have hnexp : ¬ (⟨now + c.ttl, c.counter + 1, h.length⟩ : Entry Nat).expiresAt
      ≤ now' := by
    simp; omega
  have hget : ((c.set now key h.length).get now' key).1 = some h.length := by
    simp [TTLCache.get, hfind, hnexp]
  have halt : a < h.length := readRec_lt_length h a r ha
  constructor
  · rw [hsc]
    simp only [cacheGetValue, hget]
    rw [readRec_writeRec_ne _ _ _ _ (Nat.ne_of_lt halt).symm]
    exact readRec_append_length h r
  · intro a₁ ha₁
    rw [hsc] at ha₁ ⊢
    simp only [hget, Option.some.injEq] at ha₁
    simp only [cacheGetValue, hget]
    rw [← ha₁]
    exact readRec_writeRec_same _ _ _ (by simp)

/-- Witness for `copy_isolation_amended` at the counterexample's inputs. -/
theorem copy_isolation_amended_witness :
    cacheGetValue
      (writeRec (cacheSetCopy [sampleRec 1] (mkCache Nat 100 2) 0 "k" 0).1 0
        (sampleRec 3))
      (cacheSetCopy [sampleRec 1] (mkCache Nat 100 2) 0 "k" 0).2 0 "k"
      = some (sampleRec 1) :=
  (copy_isolation_amended [sampleRec 1] (mkCache Nat 100 2) 0 0 "k" 0
    (sampleRec 1) (sampleRec 3) (by decide) (by decide)).1

/-- Parsed JSON values as returned by `resp.json()`.  JSON numbers appear
as integers here: none of the verified paths depends on float payloads. -/
inductive Json where
  | null
  | bool (b : Bool)
  | int (n : Int)
  | str (s : String)
  | arr (items : List Json)
  | obj (fields : List (String × Json))
  deriving Repr

/-- First binding for `key` in a JSON object's field list. -/
def lookupField (key : String) : List (String × Json) → Option Json
  | [] => none
  | kv :: rest => if kv.1 = key then some kv.2 else lookupField key rest

/-- `d.get(key)` on a dict; `none` on a non-dict or a missing key. -/
def objGet (j : Json) (key : String) : Option Json :=
  match j with
  | .obj fields => lookupField key fields
  | _ => none

/-- `key in d`. -/
def hasKey (j : Json) (key : String) : Bool :=
  (objGet j key).isSome

/-- Python truthiness of a JSON value. -/
def pyTruthy : Json → Bool
  | .null => false
  | .bool b => b
  | .int n => n != 0
  | .str s => !(s == "")
  | .arr items => !items.isEmpty
  | .obj fields => !fields.isEmpty

/-- `d.get(key) or {}`: the value when present and truthy, else `{}`. -/
def getOrEmptyObj (j : Json) (key : String) : Json :=
  match objGet j key with
  | some v => if pyTruthy v then v else .obj []
  | none => .obj []

/-- `x is False` for an optional JSON value: it is exactly the Boolean
`False`. -/
def isPyFalse : Option Json → Bool
  | some (Json.bool false) => true
  | _ => false

/-- Python `str(...)` on the JSON values the verified paths meet; only the
string case is exercised by the claims. -/
def pyStr : Json → String
  | .str s => s
  | .bool true => "True"
  | .bool false => "False"
  | .null => "None"
  | .int n => toString n
  | .arr _ => ""
  | .obj _ => ""

/-- The typed domain error `WeatherstackError` from
`app/weatherstack_client.py`: `code: int | None`, `type: str | None`,
`info: str`. -/
structure WeatherstackError where
  code : Option Int
  type : Option String
  info : String
  deriving DecidableEq, Repr

/-- `err.get("code")`, read as the declared `int | None` (a non-integer
value behaves like `None` in every comparison the handler performs). -/
def extractCode (err : Json) : Option Int :=
  match objGet err "code" with
  | some (.int n) => some n
  | _ => none

/-- `err.get("type")`, read as the declared `str | None`. -/
def extractType (err : Json) : Option String :=
  match objGet err "type" with
  | some (.str s) => some s
  | _ => none

/-- `str(err.get("info") or "")`. -/
def extractInfo (err : Json) : String :=
  match objGet err "info" with
  | some v => if pyTruthy v then pyStr v else ""
  | none => ""

/-- `WeatherstackClient.get_current` from the point where the body has
been parsed (app/weatherstack_client.py lines 37–48): raise the structured
domain error on `success is False and "error" in data`; raise the
synthesized error when `location` or `current` is missing; otherwise
return the payload unchanged. -/
def get_current (data : Json) : Except WeatherstackError Json :=
  if isPyFalse (objGet data "success") && hasKey data "error" then
    .error ⟨extractCode (getOrEmptyObj data "error"),
            extractType (getOrEmptyObj data "error"),
            extractInfo (getOrEmptyObj data "error")⟩
  else if !hasKey data "location" || !hasKey data "current" then
    .error ⟨none, none, "Unexpected response from Weatherstack"⟩
  else
    .ok data

/-- `_http_exception_from_weatherstack_error` (app/main.py lines 111–127):
each branch fires when the code **or** the type matches; checked in order.
The result is the `(status_code, detail)` pair. -/
def http_exception_from_weatherstack_error (e : WeatherstackError) :
    Nat × String :=
  if e.code = some 101 ∨ e.type = some "unauthorized" then
    (401, "Weatherstack unauthorized")
  else if e.code = some 104 ∨ e.type = some "usage_limit_reached" then
    (429, "Weatherstack usage limit reached")
  else if e.code = some 429 ∨ e.type = some "too_many_requests" then
    (429, "Weatherstack too many requests")
  else if e.code = some 403 ∨ e.type = some "forbidden" then
    (403, "Weatherstack forbidden")
  else if e.code = some 601 ∨ e.type = some "missing_query" then
    (400, "Missing city query")
  else
    (502, "Upstream Weatherstack error")

/-- The status table exactly as claim C5 words it: match on the precise
`(code, type)` pair, any other pair mapping to 502.  Written from the
claim, to be compared against the source mapping. -/
def claimStatusByPair (code : Option Int) (ty : Option String) : Nat :=
  if code = some 101 ∧ ty = some "unauthorized" then 401
  else if code = some 104 ∧ ty = some "usage_limit_reached" then 429
  else if code = some 429 ∧ ty = some "too_many_requests" then 429
  else if code = some 403 ∧ ty = some "forbidden" then 403
  else if code = some 601 ∧ ty = some "missing_query" then 400
  else 502

/-- A run of ASCII digits possibly containing single underscores, each
underscore standing between two digits — the shape accepted inside Python
`int(...)` after sign and whitespace handling. -/
def pyDigitRun : List Char → Bool
  | [] => true
  | c :: cs =>
      if c = '_' then
        match cs with
        | [] => false
        | c' :: cs' => c'.isDigit && pyDigitRun cs'
      else c.isDigit && pyDigitRun cs

/-- A nonempty digit run that does not start with an underscore. -/
def pyDigits : List Char → Bool
  | [] => false
  | c :: cs => c.isDigit && pyDigitRun (c :: cs)

/-- Numeric value of a digit run (underscores already removed). -/
def digitsVal (cs : List Char) : Nat :=
  cs.foldl (fun acc c => 10 * acc + (c.toNat - 48)) 0

/-- Python `int(s)` on an ASCII string: strip whitespace, optional single
sign, then an underscore-grouped digit run; `none` models `ValueError`. -/
def parseIntPy (s : String) : Option Int :=
  let cs := ((s.data.dropWhile Char.isWhitespace).reverse.dropWhile
    Char.isWhitespace).reverse
  match cs with
  | '+' :: rest =>
      if pyDigits rest then some ((digitsVal (rest.filter (fun c => c != '_')) : Nat) : Int)
      else none
  | '-' :: rest =>
      if pyDigits rest then some (-((digitsVal (rest.filter (fun c => c != '_')) : Nat) : Int))
      else none
  | _ =>
      if pyDigits cs then some ((digitsVal (cs.filter (fun c => c != '_')) : Nat) : Int)
      else none

/-- `_safe_int` (app/main.py lines 81–85): `int(value)` with `TypeError`
and `ValueError` mapped to `None`.  `int()` of a Boolean yields 0 or 1;
`None`, lists and dicts raise `TypeError`. -/
def safe_int : Json → Option Int
  | .int n => some n
  | .bool b => some (if b then 1 else 0)
  | .str s => parseIntPy s
  | _ => none

/-- `_safe_int(d.get(key))`: an absent key gives `int(None)`, a
`TypeError`, hence `None`. -/
def safe_intOpt (o : Option Json) : Option Int :=
  match o with
  | none => none
  | some j => safe_int j

/-- An `Optional[str]` pydantic field receiving `o`: a string passes
through, `None`/absent stays `None` (the well-formedness side conditions
rule out other shapes, which pydantic would reject). -/
def optStr (o : Option Json) : Option String :=
  match o with
  | some (.str s) => some s
  | _ => none

/-- `str(x or "")`. -/
def pyStrOrEmpty (o : Option Json) : String :=
  match o with
  | some v => if pyTruthy v then pyStr v else ""
  | none => ""

/-- `list(x or [])` for the descriptions list; under the well-formedness
side conditions every element is a string. -/
def descrList (o : Option Json) : List String :=
  match o with
  | some (.arr items) =>
      items.filterMap (fun j => match j with | .str s => some s | _ => none)
  | _ => []

/-- `_map_weatherstack_payload` (app/main.py lines 88–108): requires an
integer-convertible `current.temperature` (else `ValueError`, modelled as
`Except.error ()`), maps every other numeric field best-effort through
`_safe_int`, and defaults the description list to `[]`. -/
def map_weatherstack_payload (data : Json) : Except Unit WeatherResponse :=
  let location := getOrEmptyObj data "location"
  let current := getOrEmptyObj data "current"
  match safe_intOpt (objGet current "temperature") with
  | none => .error ()
  | some temperature =>
      .ok
        { city := pyStrOrEmpty (objGet location "name")
          country := optStr (objGet location "country")
          localtime := optStr (objGet location "localtime")
          temperature_c := temperature
          weather_descriptions := descrList (objGet current "weather_descriptions")
          wind_speed := safe_intOpt (objGet current "wind_speed")
          wind_dir := optStr (objGet current "wind_dir")
          humidity := safe_intOpt (objGet current "humidity")
          feelslike_c := safe_intOpt (objGet current "feelslike")
          uv_index := safe_intOpt (objGet current "uv_index")
          visibility_km := safe_intOpt (objGet current "visibility") }

/-- The handler's mapping step (app/main.py lines 210–216): a `ValueError`
from the mapping becomes the 502 "Unexpected response from Weatherstack"
client error. -/
def mapStep (data : Json) : Except (Nat × String) WeatherResponse :=
  match map_weatherstack_payload data with
  | .error _ => .error (502, "Unexpected response from Weatherstack")
  | .ok r => .ok r

/-- A section value on which `(x or {}).get(...)` cannot raise: absent,
falsy, or a dict. -/
def sectionOk (o : Option Json) : Bool :=
  match o with
  | none => true
  | some v =>
      if pyTruthy v then (match v with | .obj _ => true | _ => false)
      else true

/-- A value an `Optional[str]` pydantic field accepts: absent, null, or a
string. -/
def strOrAbsent (o : Option Json) : Bool :=
  match o with
  | none => true
  | some .null => true
  | some (.str _) => true
  | _ => false

/-- A value `list(x or [])` turns into a list of strings pydantic accepts:
absent, falsy, or an array of strings. -/
def descrOk (o : Option Json) : Bool :=
  match o with
  | none => true
  | some (.arr items) =>
      items.all (fun j => match j with | .str _ => true | _ => false)
  | some v => !pyTruthy v

/-- Well-formedness of an upstream payload: the section values and the
string-typed fields have shapes on which the Python mapping neither raises
an uncaught `TypeError`/`AttributeError` nor trips pydantic validation, so
the embedding is faithful. -/
def wfPayload (data : Json) : Bool :=
  sectionOk (objGet data "location") && sectionOk (objGet data "current")
  && strOrAbsent (objGet (getOrEmptyObj data "location") "name")
  && strOrAbsent (objGet (getOrEmptyObj data "location") "country")
  && strOrAbsent (objGet (getOrEmptyObj data "location") "localtime")
  && strOrAbsent (objGet (getOrEmptyObj data "current") "wind_dir")
  && descrOk (objGet (getOrEmptyObj data "current") "weather_descriptions")

/-- C6 as stated is false only in the `info` text: the synthesized error's
`info` is the source's literal "Unexpected response from Weatherstack",
not "unexpected response".  Concretely at the empty envelope. -/
theorem unexpected_envelope_counterexample :
    get_current (Json.obj [])
      = .error ⟨none, none, "Unexpected response from Weatherstack"⟩
    ∧ "Unexpected response from Weatherstack" ≠ "unexpected response" :=
  ⟨rfl, by decide⟩

/-- C6 amended: a parsed envelope that lacks both a `location` and a
`current` section and carries no failure marker makes `get_current` raise
the domain error with absent code, absent type, and info "Unexpected
response from Weatherstack". -/
theorem unexpected_envelope_error (data : Json)
    (hloc : hasKey data "location" = false)
    (hcur : hasKey data "current" = false)
    (hmark : (isPyFalse (objGet data "success") && hasKey data "error") = false) :
    get_current data
      = .error ⟨none, none, "Unexpected response from Weatherstack"⟩ := by
  simp [get_current, hmark, hloc, hcur]

/-- Witness for `unexpected_envelope_error` at a one-field envelope. -/
theorem unexpected_envelope_error_witness :
    get_current (Json.obj [("foo", Json.null)])
      = .error ⟨none, none, "Unexpected response from Weatherstack"⟩ :=
  unexpected_envelope_error (Json.obj [("foo", Json.null)]) rfl rfl rfl

/-- An envelope whose `success` is `false` but that has no `error` key,
and that carries both sections. -/
def sampleEnvelope : Json :=
  Json.obj [("success", Json.bool false),
    ("location", Json.obj [("name", Json.str "Paris")]),
    ("current", Json.obj [("temperature", Json.int 20)])]

/-- C10: when `success` equals `false` but no `error` key is present, the
structured-failure branch does not fire — any error raised is the
synthesized one — and when both `location` and `current` are present the
payload is returned unchanged. -/
theorem success_false_without_error_key (data : Json)
    (_hsucc : objGet data "success" = some (Json.bool false))
    (herr : hasKey data "error" = false) :
    (∀ e, get_current data = .error e →
        e.code = none ∧ e.type = none
          ∧ e.info = "Unexpected response from Weatherstack")
    ∧ (hasKey data "location" = true → hasKey data "current" = true →
        get_current data = .ok data) := by
  have hcond : (isPyFalse (objGet data "success") && hasKey data "error")
      = false := by
    simp [herr]
  constructor
  · intro e he
    by_cases h2 : (!hasKey data "location" || !hasKey data "current") = true
    · simp only [get_current, hcond, Bool.false_eq_true, if_false, h2,
        if_true] at he
      have : (⟨none, none, "Unexpected response from Weatherstack"⟩ :
          WeatherstackError) = e := by
        injection he
      rw [← this]
      exact ⟨rfl, rfl, rfl⟩
    · simp only [get_current, hcond, Bool.false_eq_true, if_false, h2,
        Bool.false_eq_true] at he
      simp at h2
      simp [h2] at he
  · intro hl hc
    simp [get_current, hcond, hl, hc]

/-- Witness for `success_false_without_error_key` on `sampleEnvelope`. -/
theorem success_false_without_error_key_witness :
    get_current sampleEnvelope = .ok sampleEnvelope :=
  (success_false_without_error_key sampleEnvelope rfl rfl).2 rfl rfl

/-- C5 as stated is false: each source branch fires on code **or** type,
not on the exact pair.  The pair `(101, forbidden)` is not in the claim's
table, so the claim sends it to 502, but the source maps it to 401 through
the `code == 101` half of the first branch. -/
theorem error_mapping_counterexample :
    (http_exception_from_weatherstack_error
      ⟨some 101, some "forbidden", ""⟩).1 = 401
    ∧ claimStatusByPair (some 101) (some "forbidden") = 502 := by
  exact ⟨by decide, by decide⟩

/-- C5 amended: the handler maps an upstream domain error by checking the
rules in order — 101/unauthorized, 104/usage_limit_reached,
429/too_many_requests, 403/forbidden, 601/missing_query — where a rule
fires when the code **or** the type matches, first match winning, and any
error matching no rule maps to 502; `(104, usage_limit_reached)` surfaces
as 429. -/
theorem error_mapping_spec (e : WeatherstackError) :
    ((http_exception_from_weatherstack_error e).1 = 401 ↔
      (e.code = some 101 ∨ e.type = some "unauthorized"))
    ∧ ((http_exception_from_weatherstack_error e).1 = 429 ↔
      (¬(e.code = some 101 ∨ e.type = some "unauthorized")
        ∧ ((e.code = some 104 ∨ e.type = some "usage_limit_reached")
          ∨ (e.code = some 429 ∨ e.type = some "too_many_requests"))))
    ∧ ((http_exception_from_weatherstack_error e).1 = 403 ↔
      (¬(e.code = some 101 ∨ e.type = some "unauthorized")
        ∧ ¬(e.code = some 104 ∨ e.type = some "usage_limit_reached")
        ∧ ¬(e.code = some 429 ∨ e.type = some "too_many_requests")
        ∧ (e.code = some 403 ∨ e.type = some "forbidden")))
    ∧ ((http_exception_from_weatherstack_error e).1 = 400 ↔
      (¬(e.code = some 101 ∨ e.type = some "unauthorized")
        ∧ ¬(e.code = some 104 ∨ e.type = some "usage_limit_reached")
        ∧ ¬(e.code = some 429 ∨ e.type = some "too_many_requests")
        ∧ ¬(e.code = some 403 ∨ e.type = some "forbidden")
        ∧ (e.code = some 601 ∨ e.type = some "missing_query")))
    ∧ ((http_exception_from_weatherstack_error e).1 = 502 ↔
      (¬(e.code = some 101 ∨ e.type = some "unauthorized")
        ∧ ¬(e.code = some 104 ∨ e.type = some "usage_limit_reached")
        ∧ ¬(e.code = some 429 ∨ e.type = some "too_many_requests")
        ∧ ¬(e.code = some 403 ∨ e.type = some "forbidden")
        ∧ ¬(e.code = some 601 ∨ e.type = some "missing_query")))
    ∧ (http_exception_from_weatherstack_error
        ⟨some 104, some "usage_limit_reached", ""⟩).1 = 429 := by
  have hex : (http_exception_from_weatherstack_error
      ⟨some 104, some "usage_limit_reached", ""⟩).1 = 429 := by decide
  refine ⟨?_, ?_, ?_, ?_, ?_, hex⟩
  all_goals
    simp only [http_exception_from_weatherstack_error]
    split_ifs with h1 h2 h3 h4 h5
  all_goals simp_all

/-- C7: the mapping step demands an integer-convertible
`current.temperature` — absent or unconvertible fails the operation with
502, while the string "22" succeeds with `temperature_c = 22` — every
other numeric field goes through `_safe_int` and is absent rather than a
failure when unparseable or missing, and the description list defaults to
empty. -/
theorem mapping_temperature_requirements (data : Json)
    (_hwf : wfPayload data = true) :
    (safe_intOpt (objGet (getOrEmptyObj data "current") "temperature") = none →
        mapStep data = .error (502, "Unexpected response from Weatherstack"))
    ∧ (objGet (getOrEmptyObj data "current") "temperature"
          = some (Json.str "22") →
        ∃ r, mapStep data = .ok r ∧ r.temperature_c = 22)
    ∧ (∀ r, mapStep data = .ok r →
        r.wind_speed
            = safe_intOpt (objGet (getOrEmptyObj data "current") "wind_speed")
        ∧ r.humidity
            = safe_intOpt (objGet (getOrEmptyObj data "current") "humidity")
        ∧ r.feelslike_c
            = safe_intOpt (objGet (getOrEmptyObj data "current") "feelslike")
        ∧ r.uv_index
            = safe_intOpt (objGet (getOrEmptyObj data "current") "uv_index")
        ∧ r.visibility_km
            = safe_intOpt (objGet (getOrEmptyObj data "current") "visibility")
        ∧ (objGet (getOrEmptyObj data "current") "weather_descriptions" = none →
            r.weather_descriptions = []))
    ∧ safe_int (Json.str "22") = some 22
    ∧ safe_int (Json.str "overcast") = none
    ∧ safe_intOpt none = none := by
  refine ⟨?_, ?_, ?_, by decide, by decide, rfl⟩
  · intro h
    simp [mapStep, map_weatherstack_payload, h]
  · intro h
    have ht : safe_intOpt (objGet (getOrEmptyObj data "current") "temperature")
        = some 22 := by
      rw [h]; decide
    simp only [mapStep, map_weatherstack_payload, ht]
    exact ⟨_, rfl, rfl⟩
  · intro r hr
    cases hcase : safe_intOpt (objGet (getOrEmptyObj data "current")
        "temperature") with
    | none => simp [mapStep, map_weatherstack_payload, hcase] at hr
    | some t =>
        simp only [mapStep, map_weatherstack_payload, hcase] at hr
        have hrr := hr
        injection hrr with hrec
        rw [← hrec]
        refine ⟨rfl, rfl, rfl, rfl, rfl, ?_⟩
        intro hdesc
        simp [descrList, hdesc]

/-- A well-formed payload with a string-typed temperature "22". -/
def wfSample : Json :=
  Json.obj [("location", Json.obj [("name", Json.str "Paris")]),
    ("current", Json.obj [("temperature", Json.str "22")])]

/-- Witness for `mapping_temperature_requirements` on `wfSample`. -/
theorem mapping_temperature_requirements_witness :
    wfPayload wfSample = true
    ∧ ∃ r, mapStep wfSample = .ok r ∧ r.temperature_c = 22 :=
  ⟨rfl, (mapping_temperature_requirements wfSample rfl).2.1 rfl⟩

end WeatherApi
